import Mathlib

/-!
Shallow embedding of `topohedral-tracing` (`src/lib.rs`): a small logging
engine consisting of a filter-configuration parser (`TopoHedralLogger::new`,
reading the `TOPO_LOG` environment variable), an enablement decision
(`TopoHedralLogger::enabled`), a record formatter and the global logger
lifecycle (`init`, `topo_log`).

Machine integers do not matter here (severities are five-valued enums, the
line number is only printed), strings are modelled as Lean `String` with the
splitting functions of Rust's `str::split` re-implemented over `List Char`,
and the `HashMap<String, LevelFilter>` is modelled as a function
`String → Option LevelFilter` with pointwise insertion (last insert wins,
exactly as `HashMap::insert` overwrites).
-/

namespace TopoTracing

/-- The `log` crate's `LevelFilter` enum: `Off = 0, Error = 1, Warn = 2,
Info = 3, Debug = 4, Trace = 5`; its `Ord` compares these discriminants. -/
inductive LevelFilter where
  | Off
  | Error
  | Warn
  | Info
  | Debug
  | Trace
deriving DecidableEq, Repr

/-- Numeric discriminant of `LevelFilter`, as in the `log` crate
(`as_usize`), used by its `Ord`/`PartialOrd` implementations. -/
def LevelFilter.toNat : LevelFilter → Nat
  | .Off => 0
  | .Error => 1
  | .Warn => 2
  | .Info => 3
  | .Debug => 4
  | .Trace => 5

/-- The `log` crate's `Level` enum of message severities:
`Error = 1, ..., Trace = 5` (there is no `Off` level for a message). -/
inductive Level where
  | Error
  | Warn
  | Info
  | Debug
  | Trace
deriving DecidableEq, Repr

/-- Numeric discriminant of `Level`, aligned with `LevelFilter.toNat`; the
`log` crate compares a `Level` with a `LevelFilter` through these values. -/
def Level.toNat : Level → Nat
  | .Error => 1
  | .Warn => 2
  | .Info => 3
  | .Debug => 4
  | .Trace => 5

/-- `Level::as_str` of the `log` crate: the upper-case name printed for the
severity token. -/
def Level.asStr : Level → String
  | .Error => "ERROR"
  | .Warn => "WARN"
  | .Info => "INFO"
  | .Debug => "DEBUG"
  | .Trace => "TRACE"

/-- `std::cmp::max` on `LevelFilter` (returns the second argument on a tie,
like Rust's `max_by`), used in `TopoHedralLogger::enabled`. -/
def lfMax (a b : LevelFilter) : LevelFilter :=
  if a.toNat ≤ b.toNat then b else a

/-- Rust `str::split` with a one-character separator, on the character list
of the string: `"" ↦ [""]`, `"a,b" ↦ ["a","b"]`, `"," ↦ ["",""]`, keeping
every (possibly empty) piece between separators. -/
def splitChL (c : Char) : List Char → List (List Char)
  | [] => [[]]
  | x :: xs =>
    if x = c then [] :: splitChL c xs
    else
      match splitChL c xs with
      | [] => [[x]]
      | y :: ys => (x :: y) :: ys

/-- `str::split` on `String`, via `splitChL`. -/
def splitCh (c : Char) (s : String) : List String :=
  (splitChL c s.data).map String.mk

/-- `str::contains` with a one-character pattern (`key.contains("=")`). -/
def containsCh (c : Char) (s : String) : Bool :=
  decide (c ∈ s.data)

/-- The level-token match in `TopoHedralLogger::new`:
`"trace" | "5" => Trace, ..., _ => Info`. -/
def levelOfTok (tok : String) : LevelFilter :=
  if tok = "trace" ∨ tok = "5" then .Trace
  else if tok = "debug" ∨ tok = "4" then .Debug
  else if tok = "info" ∨ tok = "3" then .Info
  else if tok = "warn" ∨ tok = "2" then .Warn
  else if tok = "error" ∨ tok = "1" then .Error
  else .Info

/-- The `HashMap<String, LevelFilter>` of per-target filters, as a partial
map; `insert` overwrites, so the last insertion for a key wins. -/
abbrev FilterMap := String → Option LevelFilter

/-- `HashMap::new`. -/
def FilterMap.empty : FilterMap := fun _ => none

/-- `HashMap::insert` (overwriting any previous value for the key). -/
def FilterMap.insert (m : FilterMap) (k : String) (v : LevelFilter) : FilterMap :=
  fun x => if x = k then some v else m x

/-- The `TopoHedralLogger` struct: the `all` (global default) filter and the
per-target `filters` map. -/
structure TopoHedralLogger where
  all : LevelFilter
  filters : FilterMap

/-- The per-entry work of the loop in `TopoHedralLogger::new`, with the
fallible slice indexings `peices[0]` / `peices[1]` made explicit: if the
entry contains `'='` it is split on `'='`, the target is piece 0 and the
level is the token of piece 1; otherwise the whole entry is the target and
the level is `Info`. `Except.error` marks the out-of-bounds panic. -/
def parseEntryE (key : String) : Except String (String × LevelFilter) :=
  if containsCh '=' key then
    let pieces := splitCh '=' key
    match pieces.get? 0, pieces.get? 1 with
    | some t, some tok => .ok (t, levelOfTok tok)
    | _, _ => .error "index out of bounds"
  else
    .ok (key, LevelFilter.Info)

/-- Total version of `parseEntryE` (the indexings replaced by `headD`/`getD`;
`parseEntryE_ok` below proves the two agree on every input). -/
def parseEntry (key : String) : String × LevelFilter :=
  if containsCh '=' key then
    let pieces := splitCh '=' key
    (pieces.headD "", levelOfTok (pieces.getD 1 ""))
  else
    (key, LevelFilter.Info)

/-- The tail of the loop body in `TopoHedralLogger::new`: a parsed entry
whose target is `"all"` overwrites the global default, any other target is
inserted into the filters map. -/
def applyEntry (st : LevelFilter × FilterMap) (e : String × LevelFilter) :
    LevelFilter × FilterMap :=
  if e.1 = "all" then (e.2, st.2) else (st.1, st.2.insert e.1 e.2)

/-- Result of `std::env::var("TOPO_LOG")` as matched in
`TopoHedralLogger::new`: a unicode value, `VarError::NotPresent`, or
`VarError::NotUnicode` (the code ignores both error variants). -/
inductive EnvResult where
  | ok (val : String)
  | notPresent
  | notUnicode
deriving DecidableEq

/-- `TopoHedralLogger::new` with the slice-indexing panics made explicit
(`Except.error` = panic): split the variable on `','` and fold the entries
over the initial state `(Off, empty)`. -/
def newE (env : EnvResult) : Except String TopoHedralLogger :=
  match env with
  | .ok val => do
    let st ← (splitCh ',' val).foldlM
      (fun st key => do
        let e ← parseEntryE key
        pure (applyEntry st e))
      (LevelFilter.Off, FilterMap.empty)
    pure ⟨st.1, st.2⟩
  | .notPresent => pure ⟨.Off, FilterMap.empty⟩
  | .notUnicode => pure ⟨.Off, FilterMap.empty⟩

/-- The fold underlying `TopoHedralLogger::new` on a present variable. -/
def parseConfig (val : String) : LevelFilter × FilterMap :=
  (splitCh ',' val).foldl (fun st key => applyEntry st (parseEntry key))
    (LevelFilter.Off, FilterMap.empty)

/-- Total version of `TopoHedralLogger::new` (agrees with `newE` on every
input by `parser_never_fails`). -/
def new (env : EnvResult) : TopoHedralLogger :=
  match env with
  | .ok val => ⟨(parseConfig val).1, (parseConfig val).2⟩
  | .notPresent => ⟨.Off, FilterMap.empty⟩
  | .notUnicode => ⟨.Off, FilterMap.empty⟩

/-- `TopoHedralLogger::enabled`: look the target up in `filters` (falling
back to `all`), take the `max` with `all`, and compare the message level
against the result through the numeric discriminants (the `log` crate's
`Level ≤ LevelFilter` comparison). -/
def TopoHedralLogger.enabled (l : TopoHedralLogger) (target : String) (sev : Level) : Bool :=
  let target_level := (l.filters target).getD l.all
  let target_level2 := lfMax target_level l.all
  decide (sev.toNat ≤ target_level2.toNat)

/-- A `log::Record` as built in `topo_log`: the metadata consulted by
`enabled` (target, level) plus the already-formatted message put into
`args`, and the file/line attributes. -/
structure Record where
  target : String
  level : Level
  args : String
  file : String
  line : Nat

/-- `TopoHedralLogger::log`: re-check `enabled` on the record's metadata and,
if enabled, write `record.args()` as one line to the standard error stream.
The returned list is the sequence of lines written (empty or a singleton). -/
def TopoHedralLogger.log (l : TopoHedralLogger) (r : Record) : List String :=
  if l.enabled r.target r.level then [r.args] else []

/-- ANSI style prefix produced by the `colored` crate for the color names
used in `topo_log` (`compute_style` for a plain foreground color). -/
def ansiCode (color : String) : String :=
  if color = "red" then "\x1B[31m"
  else if color = "yellow" then "\x1B[33m"
  else if color = "green" then "\x1B[32m"
  else if color = "blue" then "\x1B[34m"
  else if color = "magenta" then "\x1B[35m"
  else ""

/-- Rendering of `s.color(c)`: the `colored` crate's `Display` writes the
style sequence, the text, then the reset sequence `"\x1B[0m"`. -/
def colorize (color : String) (s : String) : String :=
  ansiCode color ++ s ++ "\x1B[0m"

/-- The color chosen for each level in `topo_log` (`log_color`). -/
def logColor : Level → String
  | .Error => "red"
  | .Warn => "yellow"
  | .Info => "green"
  | .Debug => "blue"
  | .Trace => "magenta"

/-- Rust string formatting with a `{:<w}`-style width: left-aligned,
space-padded to `w` characters (never truncating). -/
def padLeftAlign (w : Nat) (s : String) : String :=
  s ++ String.mk (List.replicate (w - s.length) ' ')

/-- The severity field of the format string `"[{:<5} - ..."` applied to
`level.as_str().color(log_color)`: the width specifier is handled by the
`colored` crate's `Display` implementation, which writes style + text +
reset and does not implement the formatter's width/fill options, so no
visible padding is produced; equivalently (and as defined here), the
padding applies to the escape-wrapped string, whose length always exceeds
5, so it never takes effect. -/
def severityField (lv : Level) : String :=
  padLeftAlign 5 (colorize (logColor lv) lv.asStr)

/-- Modelled from the spec: the severity field as the spec's words describe
it — the severity token "padded to 5, left-aligned, color-tagged", i.e. the
visible token occupies 5 columns inside the color tags. Used only for the
refinement comparison against `severityField`. -/
def specSeverityField (lv : Level) : String :=
  colorize (logColor lv) (padLeftAlign 5 lv.asStr)

/-- The full line built by `format_args!("[{:<5} - {:<3} - {}:{}] {}", ...)`
in `topo_log`: colored severity, thread id padded to width 3 (the
`ThreadIdWrapper` display extracts the numeric id from `ThreadId(n)` and
honors the width, left-aligned), module, line, message. -/
def formatLine (sev : Level) (tid : Nat) (module : String) (line : Nat)
    (args : String) : String :=
  "[" ++ severityField sev ++ " - " ++ padLeftAlign 3 (toString tid) ++ " - " ++
    module ++ ":" ++ toString line ++ "] " ++ args

/-- First-some choice on optional levels, used to phrase how a fold over
insertions resolves a key (helper for the last-occurrence lemmas). -/
def oOr (a b : Option LevelFilter) : Option LevelFilter :=
  match a with
  | some x => some x
  | none => b

/-- The process-wide state: the `LOGGER: Mutex<Option<Box<dyn Log>>>` cell
and the `log` facade's max level set by `init`. -/
structure GlobalState where
  logger : Option TopoHedralLogger
  maxLevel : LevelFilter

/-- `init`: overwrite the logger cell with a freshly parsed logger and set
the facade's max level to `Trace`. The previous state is discarded. -/
def init (env : EnvResult) (_st : GlobalState) : GlobalState :=
  { logger := some (new env), maxLevel := .Trace }

/-- `topo_log`: lock the global cell; if no logger is installed do nothing,
otherwise build the record (its `args` being the formatted line) and hand it
to `TopoHedralLogger::log`. Returns the state after the call and the lines
written to the standard error stream. -/
def topo_log (st : GlobalState) (target : String) (sev : Level) (module : String)
    (line : Nat) (tid : Nat) (args : String) : GlobalState × List String :=
  match st.logger with
  | none => (st, [])
  | some logger =>
    (st, logger.log
      { target := target, level := sev, args := formatLine sev tid module line args,
        file := module, line := line })

theorem splitChL_ne_nil (c : Char) (l : List Char) : splitChL c l ≠ [] := by
  cases l with
  | nil => simp [splitChL]
  | cons x xs =>
    simp only [splitChL]
    split
    · simp
    · cases h : splitChL c xs <;> simp [h]

theorem splitChL_two (c : Char) (l : List Char) (h : c ∈ l) :
    ∃ a b t, splitChL c l = a :: b :: t := by
  induction l with
  | nil => cases h
  | cons x xs ih =>
    simp only [splitChL]
    by_cases hx : x = c
    · rw [if_pos hx]
      cases hs : splitChL c xs with
      | nil => exact absurd hs (splitChL_ne_nil c xs)
      | cons y ys => exact ⟨[], y, ys, rfl⟩
    · rw [if_neg hx]
      have hmem : c ∈ xs := by
        rcases List.mem_cons.mp h with h' | h'
        · exact absurd h'.symm hx
        · exact h'
      obtain ⟨a, b, t, hs⟩ := ih hmem
      rw [hs]
      exact ⟨x :: a, b, t, rfl⟩

theorem parseEntryE_ok (key : String) : parseEntryE key = .ok (parseEntry key) := by
  unfold parseEntryE parseEntry
  by_cases h : containsCh '=' key = true
  · have hmem : '=' ∈ key.data := of_decide_eq_true h
    obtain ⟨a, b, t, hs⟩ := splitChL_two '=' key.data hmem
    simp [h, splitCh, hs]
  · simp [h]

theorem foldlM_parse_ok (l : List String) (st : LevelFilter × FilterMap) :
    (l.foldlM (fun st key => do
        let e ← parseEntryE key
        pure (applyEntry st e)) st : Except String (LevelFilter × FilterMap)) =
      .ok (l.foldl (fun st key => applyEntry st (parseEntry key)) st) := by
  induction l generalizing st with
  | nil => rfl
  | cons k ks ih =>
    rw [List.foldlM_cons, List.foldl_cons, parseEntryE_ok]
    exact ih _

/-- C4: the configuration parser never fails: for every state of the
environment variable (present with any string, absent, or not unicode) the
fallible parser — with the slice indexings `peices[0]`/`peices[1]` modelled
as possible panics — returns `Except.ok` with a configuration, the one the
total parser `new` computes. -/
theorem parser_never_fails (env : EnvResult) : newE env = Except.ok (new env) := by
  cases env with
  | ok val =>
    simp only [newE, new, parseConfig]
    rw [foldlM_parse_ok]
    rfl
  | notPresent => rfl
  | notUnicode => rfl

/-- C5: the level tokens map as `trace`/`5`→Trace, `debug`/`4`→Debug,
`info`/`3`→Info, `warn`/`2`→Warn, `error`/`1`→Error; every other token maps
to `Info`; and a bare entry without `'='` parses to its own name as target
with level `Info`. -/
theorem level_token_mapping :
    (levelOfTok "trace" = .Trace ∧ levelOfTok "5" = .Trace ∧
     levelOfTok "debug" = .Debug ∧ levelOfTok "4" = .Debug ∧
     levelOfTok "info" = .Info ∧ levelOfTok "3" = .Info ∧
     levelOfTok "warn" = .Warn ∧ levelOfTok "2" = .Warn ∧
     levelOfTok "error" = .Error ∧ levelOfTok "1" = .Error) ∧
    (∀ tok : String,
      tok ∉ (["trace", "5", "debug", "4", "info", "3", "warn", "2", "error", "1"] : List String) →
      levelOfTok tok = .Info) ∧
    (∀ key : String, containsCh '=' key = false → parseEntry key = (key, .Info)) := by
  refine ⟨by decide, ?_, ?_⟩
  · intro tok h
    simp only [List.mem_cons, List.not_mem_nil, or_false, not_or] at h
    obtain ⟨h1, h2, h3, h4, h5, h6, h7, h8, h9, h10⟩ := h
    simp [levelOfTok, h1, h2, h3, h4, h5, h6, h7, h8, h9, h10]
  · intro key h
    simp [parseEntry, h]

/-- Witness for C5: an unrecognized token falls back to `Info`, and a bare
entry gets level `Info`. -/
theorem level_token_mapping_witness :
    levelOfTok "bogus" = .Info ∧ parseEntry "foo" = ("foo", .Info) :=
  ⟨level_token_mapping.2.1 "bogus" (by decide),
   level_token_mapping.2.2 "foo" (by decide)⟩

/-- C1: the enablement decision returns true exactly when the message
severity is at most `max(target_threshold, global_default)` in the severity
order, where `target_threshold` is the per-target entry when present and
the global default otherwise; consequently a configuration whose per-target
entry for the target is no more verbose than the global default decides
exactly as one with no entry for that target. -/
theorem enabled_max_rule (cfg : TopoHedralLogger) (target : String) (sev : Level) :
    (cfg.enabled target sev = true ↔
      sev.toNat ≤ (lfMax ((cfg.filters target).getD cfg.all) cfg.all).toNat) ∧
    (∀ (cfg' : TopoHedralLogger) (lv : LevelFilter),
      cfg.filters target = some lv → lv.toNat ≤ cfg.all.toNat →
      cfg'.all = cfg.all → cfg'.filters target = none →
      cfg.enabled target sev = cfg'.enabled target sev) := by
  constructor
  · unfold TopoHedralLogger.enabled
    exact decide_eq_true_iff
  · intro cfg' lv hlook hle hall hnone
    unfold TopoHedralLogger.enabled
    rw [hlook, hall, hnone]
    simp [lfMax, hle]

/-- Witness for C1 at the spec's P3 example: `mytarget=error` under a
`Debug` global default decides exactly as no entry at all. -/
theorem enabled_max_rule_witness :
    TopoHedralLogger.enabled
        ⟨.Debug, FilterMap.insert FilterMap.empty "mytarget" .Error⟩ "mytarget" .Info =
      TopoHedralLogger.enabled ⟨.Debug, FilterMap.empty⟩ "mytarget" .Info :=
  (enabled_max_rule ⟨.Debug, FilterMap.insert FilterMap.empty "mytarget" .Error⟩
      "mytarget" .Info).2
    ⟨.Debug, FilterMap.empty⟩ .Error (by decide) (by decide) rfl rfl

/-- C2: with the configuration source absent (`NotPresent`) or present but
not valid unicode (`NotUnicode`), parsing yields `all = Off` and an empty
per-target map; every enablement decision on such a logger is `false`, and
`topo_log` with such a logger installed writes nothing. -/
theorem default_silence :
    new .notPresent = ⟨.Off, FilterMap.empty⟩ ∧
    new .notUnicode = ⟨.Off, FilterMap.empty⟩ ∧
    (∀ (target : String) (sev : Level),
      (new .notPresent).enabled target sev = false ∧
      (new .notUnicode).enabled target sev = false) ∧
    (∀ (target : String) (sev : Level) (module : String) (line tid : Nat)
      (args : String) (maxL : LevelFilter),
      (topo_log ⟨some (new .notPresent), maxL⟩ target sev module line tid args).2 = []) := by
  refine ⟨rfl, rfl, ?_, ?_⟩
  · intro target sev
    exact ⟨by cases sev <;> rfl, by cases sev <;> rfl⟩
  · intro target sev module line tid args maxL
    have h : (new .notPresent).enabled target sev = false := by cases sev <;> rfl
    simp [topo_log, TopoHedralLogger.log, h]

/-- C7: a second `init` is fully authoritative: the state after two `init`
calls equals the state of a single `init` with the second configuration
(nothing of the first survives), the installed logger is exactly the one
parsed from the second configuration, and the active logger's decisions are
those of the second configuration alone. -/
theorem reinit_replaces (env1 env2 : EnvResult) (st : GlobalState) :
    init env2 (init env1 st) = init env2 st ∧
    (init env2 (init env1 st)).logger = some (new env2) ∧
    (∀ (target : String) (sev : Level),
      ((init env2 (init env1 st)).logger.map (fun l => l.enabled target sev)) =
        some ((new env2).enabled target sev)) :=
  ⟨rfl, rfl, fun _ _ => rfl⟩

/-- C8: calling `topo_log` while no logger is installed is a silent no-op:
the state is returned unchanged and no line is written (and, the embedding
being total, no panic occurs). -/
theorem uninitialized_log_noop (st : GlobalState) (target : String) (sev : Level)
    (module : String) (line tid : Nat) (args : String)
    (h : st.logger = none) :
    topo_log st target sev module line tid args = (st, []) := by
  unfold topo_log
  rw [h]

/-- Witness for C8 at a concrete input. -/
theorem uninitialized_log_noop_witness :
    topo_log ⟨none, .Off⟩ "t" .Info "m" 3 1 "hello" = (⟨none, .Off⟩, []) :=
  uninitialized_log_noop ⟨none, .Off⟩ "t" .Info "m" 3 1 "hello" rfl

/-- C10: for a fixed global state, whether `topo_log` writes anything
depends only on the target and the severity: two calls differing only in
module, line, message or calling thread either both emit or both do not. -/
theorem emission_depends_only_on_target_level (st : GlobalState) (target : String)
    (sev : Level) (m₁ m₂ : String) (l₁ l₂ tid₁ tid₂ : Nat) (a₁ a₂ : String) :
    ((topo_log st target sev m₁ l₁ tid₁ a₁).2 = [] ↔
      (topo_log st target sev m₂ l₂ tid₂ a₂).2 = []) := by
  unfold topo_log
  cases hst : st.logger with
  | none => simp
  | some logger =>
    simp only [TopoHedralLogger.log]
    cases logger.enabled target sev <;> simp

theorem oOr_none_right (a : Option LevelFilter) : oOr a none = a := by
  cases a <;> rfl

theorem getLast?_cons_getD {α : Type} (l : List α) (a d : α) :
    ((a :: l).getLast?).getD d = (l.getLast?).getD a := by
  induction l generalizing a d with
  | nil => rfl
  | cons b m ih =>
    rw [List.getLast?_cons_cons, ih b d, ih b a]

theorem oOr_getLast?_cons (l : List LevelFilter) (a : LevelFilter) (z : Option LevelFilter) :
    oOr ((a :: l).getLast?) z = oOr (l.getLast?) (some a) := by
  cases l with
  | nil => rfl
  | cons b m =>
    rw [List.getLast?_cons_cons]
    cases h : (b :: m).getLast? with
    | none =>
      rw [List.getLast?_eq_none_iff] at h
      simp at h
    | some x => rfl

theorem parse_foldl_all (entries : List String) (st : LevelFilter × FilterMap) :
    (entries.foldl (fun st key => applyEntry st (parseEntry key)) st).1 =
      ((entries.filterMap
        (fun e => if (parseEntry e).1 = "all" then some (parseEntry e).2 else none)).getLast?).getD
        st.1 := by
  induction entries generalizing st with
  | nil => rfl
  | cons e rest ih =>
    rw [List.foldl_cons, ih]
    by_cases he : (parseEntry e).1 = "all"
    · simp [List.filterMap_cons, he, applyEntry, getLast?_cons_getD]
    · simp [List.filterMap_cons, he, applyEntry]

theorem parse_foldl_filters (entries : List String) (st : LevelFilter × FilterMap)
    (k : String) (hk : k ≠ "all") :
    (entries.foldl (fun st key => applyEntry st (parseEntry key)) st).2 k =
      oOr ((entries.filterMap
          (fun e => if (parseEntry e).1 = k then some (parseEntry e).2 else none)).getLast?)
        (st.2 k) := by
  induction entries generalizing st with
  | nil => rfl
  | cons e rest ih =>
    rw [List.foldl_cons, ih]
    by_cases he : (parseEntry e).1 = k
    · have hne : (parseEntry e).1 ≠ "all" := fun h => hk (he.symm.trans h)
      simp [List.filterMap_cons, he, applyEntry, hne, hk, FilterMap.insert, oOr_getLast?_cons]
    · have he' : ¬(k = (parseEntry e).1) := fun h => he h.symm
      have hks : ¬("all" = k) := fun h => hk h.symm
      by_cases hall : (parseEntry e).1 = "all"
      · simp [List.filterMap_cons, he, applyEntry, hall, hks]
      · simp [List.filterMap_cons, he, applyEntry, hall, FilterMap.insert, he']

theorem parse_foldl_keys (entries : List String) (st : LevelFilter × FilterMap) (k : String)
    (h : ((entries.foldl (fun st key => applyEntry st (parseEntry key)) st).2 k).isSome = true) :
    (st.2 k).isSome = true ∨ (k ≠ "all" ∧ ∃ e ∈ entries, (parseEntry e).1 = k) := by
  induction entries generalizing st with
  | nil => exact Or.inl h
  | cons e rest ih =>
    rw [List.foldl_cons] at h
    rcases ih _ h with h' | h'
    · by_cases hall : (parseEntry e).1 = "all"
      · left
        simpa [applyEntry, hall] using h'
      · by_cases hke : k = (parseEntry e).1
        · right
          refine ⟨?_, e, List.mem_cons_self e rest, hke.symm⟩
          intro hka
          exact hall (hke.symm.trans hka)
        · left
          simpa [applyEntry, hall, FilterMap.insert, hke] using h'
    · right
      obtain ⟨hk, e', he', ht⟩ := h'
      exact ⟨hk, e', List.mem_cons_of_mem e he', ht⟩

/-- C6: for every configuration string, the parsed global default is the
level of the last entry whose target is `"all"` (falling back to `Off`),
and for every other target name `k` the per-target map holds the level of
the last entry whose target is `k` (or nothing when no entry names `k`):
last occurrence wins in both cases. -/
theorem last_occurrence_wins (val : String) (k : String) (hk : k ≠ "all") :
    (new (.ok val)).all =
      (((splitCh ',' val).filterMap
        (fun e => if (parseEntry e).1 = "all" then some (parseEntry e).2 else none)).getLast?).getD
        .Off ∧
    (new (.ok val)).filters k =
      ((splitCh ',' val).filterMap
        (fun e => if (parseEntry e).1 = k then some (parseEntry e).2 else none)).getLast? := by
  constructor
  · exact parse_foldl_all (splitCh ',' val) (.Off, FilterMap.empty)
  · exact (parse_foldl_filters (splitCh ',' val) (.Off, FilterMap.empty) k hk).trans
      (oOr_none_right _)

/-- Witness for C6: repeated `all` and repeated `foo` entries, the last of
each winning. -/
theorem last_occurrence_wins_witness :
    (new (.ok "all=debug,all=error,foo=info,foo=warn")).all = .Error ∧
    (new (.ok "all=debug,all=error,foo=info,foo=warn")).filters "foo" = some .Warn := by
  have h := last_occurrence_wins "all=debug,all=error,foo=info,foo=warn" "foo" (by decide)
  exact ⟨h.1.trans (by decide), h.2.trans (by decide)⟩

/-- Counterexample for C9 as stated: parsing the configuration `","` (a
doubled separator with two empty entries) inserts the empty string as a
per-target key, so not every key of `per_target` is non-empty. -/
theorem empty_key_counterexample :
    ¬ (∀ k : String, ((new (.ok ",")).filters k).isSome = true → k ≠ "") := by
  intro h
  exact h "" (by decide) rfl

/-- C9 (amended): every key of the parsed per-target map is the target part
of some entry of the configuration string (the piece before the first `'='`,
or the whole bare entry) and is never `"all"`; such a key may be the empty
string (e.g. from a leading, trailing or doubled comma, or an entry
beginning with `'='`). -/
theorem per_target_keys_from_entries (val : String) (k : String)
    (h : ((new (.ok val)).filters k).isSome = true) :
    k ≠ "all" ∧ ∃ e ∈ splitCh ',' val, (parseEntry e).1 = k := by
  have h' : (((splitCh ',' val).foldl (fun st key => applyEntry st (parseEntry key))
      (LevelFilter.Off, FilterMap.empty)).2 k).isSome = true := h
  rcases parse_foldl_keys (splitCh ',' val) (.Off, FilterMap.empty) k h' with h'' | h''
  · simp [FilterMap.empty] at h''
  · exact h''

/-- Witness for C9's amended theorem at a concrete configuration. -/
theorem per_target_keys_from_entries_witness :
    "foo" ≠ "all" ∧ ∃ e ∈ splitCh ',' "foo=info", (parseEntry e).1 = "foo" :=
  per_target_keys_from_entries "foo=info" "foo" (by decide)

/-- C3 (amended): an enabled record is written as exactly one line
`"[" ++ severityField ++ " - " ++ tid padded to 3 ++ " - " ++ module ++ ":"
++ line ++ "] " ++ message`, where `severityField` carries the color tags
(Error→red 31, Warn→yellow 33, Info→green 32, Debug→blue 34,
Trace→magenta 35) around the bare severity token, the width-5 padding of
the format string never taking visible effect because it applies to the
escape-wrapped token. -/
theorem emitted_line_format (st : GlobalState) (logger : TopoHedralLogger)
    (target : String) (sev : Level) (module : String) (line tid : Nat) (args : String)
    (hst : st.logger = some logger) (hen : logger.enabled target sev = true) :
    (topo_log st target sev module line tid args).2 =
      ["[" ++ severityField sev ++ " - " ++ padLeftAlign 3 (toString tid) ++ " - " ++
        module ++ ":" ++ toString line ++ "] " ++ args] ∧
    severityField .Error = "\x1B[31mERROR\x1B[0m" ∧
    severityField .Warn = "\x1B[33mWARN\x1B[0m" ∧
    severityField .Info = "\x1B[32mINFO\x1B[0m" ∧
    severityField .Debug = "\x1B[34mDEBUG\x1B[0m" ∧
    severityField .Trace = "\x1B[35mTRACE\x1B[0m" := by
  refine ⟨?_, by decide, by decide, by decide, by decide, by decide⟩
  unfold topo_log
  rw [hst]
  simp [TopoHedralLogger.log, hen, formatLine]

/-- Witness for C3's amended theorem at a concrete enabled record. -/
theorem emitted_line_format_witness :
    (topo_log ⟨some ⟨.Trace, FilterMap.empty⟩, .Trace⟩ "t" .Warn "m" 7 1 "x").2 =
      ["[" ++ severityField .Warn ++ " - " ++ padLeftAlign 3 (toString 1) ++ " - " ++
        "m" ++ ":" ++ toString 7 ++ "] " ++ "x"] :=
  (emitted_line_format ⟨some ⟨.Trace, FilterMap.empty⟩, .Trace⟩ ⟨.Trace, FilterMap.empty⟩
    "t" .Warn "m" 7 1 "x" rfl (by decide)).1

/-- Counterexample for C3 as stated: at severity `Warn` the emitted line is
not of the spec's form — the visible severity token is `WARN` (4 columns,
no padding inside the color tags), not a token padded to 5 columns. -/
theorem severity_not_padded_counterexample :
    (topo_log ⟨some ⟨.Trace, FilterMap.empty⟩, .Trace⟩ "t" .Warn "m" 1 2 "x").2 ≠
      ["[" ++ specSeverityField .Warn ++ " - " ++ padLeftAlign 3 (toString 2) ++ " - " ++
        "m" ++ ":" ++ toString 1 ++ "] " ++ "x"] := by
  decide

end TopoTracing
